import Mathlib

/-!
# int-sys: the per-frame tracking pipeline of `src/opencv/second.cpp`

A shallow embedding of the body of the `while` loop of `main`
(`second.cpp`, lines 40-91) and the properties of the match quality filter,
the presence gate, the estimator input and the boundary projection.

Numbers.  `DMatch::distance` is a `float`, widened to `double` before every
comparison; the only arithmetic on it is `2 * minDist`, which is exact in
`double` for every `float` value, and `max`.  Distances are therefore modelled
as rationals.  The literal `0.02` is modelled as `1 / 50`: no `float` lies
between the `double` nearest to `0.02` and `1 / 50`, so every comparison of a
`float` distance against either gives the same answer.  NaN and infinite
distances are outside the model (the data model makes a distance a
non-negative scalar).

Undefined behaviour.  `matches[i]`, `keypointsObj[...]`, `keypointsScene[...]`
and `sceneCorners[...]` are unchecked `std::vector` accesses.  An access out of
range makes the embedded function return `none`.
-/

namespace IntSys

/-! ## Data model -/

/-- The type `cv::Point2f`: a point of the image plane. -/
abbrev Point2f := ℚ × ℚ

/-- The type `cv::DMatch`: the fields of one correspondence. -/
structure DMatch where
  queryIdx : Int
  trainIdx : Int
  imgIdx : Int
  distance : ℚ
deriving DecidableEq

/-- The type `cv::KeyPoint`; the program reads only the field `pt`. -/
structure KeyPoint where
  pt : Point2f
deriving DecidableEq

/-- The type `cv::Mat` as far as the program uses it for `H`: the empty matrix
that `findHomography` returns when it finds no model, or a 3x3 matrix given
row by row. -/
inductive Mat where
  | empty : Mat
  | mat3 (m0 m1 m2 m3 m4 m5 m6 m7 m8 : ℚ) : Mat
deriving DecidableEq

/-- A `cv::Exception` thrown by a library routine. -/
inductive Fault where
  | cvException : Fault
deriving DecidableEq

/-- The external routines called by the gated block of the frame iteration:
`findHomography(obj, scene, RANSAC)` and
`perspectiveTransform(objCorners, sceneCorners, H)`; the latter either fills
`sceneCorners` or throws. -/
structure Collaborators where
  findHomography : List Point2f → List Point2f → Mat
  perspectiveTransform : List Point2f → Mat → Except Fault (List Point2f)

/-- What one iteration does that is observable: the argument pairs of the calls
of `findHomography`, the numbers written to `cout`, and the end points of the
calls of `line` on `colorFrame`.  No call of `line` is the outcome the
specification names `NotFound`. -/
structure FrameEffect where
  estimatorCalls : List (List Point2f × List Point2f)
  printed : List Nat
  lines : List (Point2f × Point2f)
deriving DecidableEq

/-! ## The distance scan (lines 40-50) -/

/-- The two running values of the scan. -/
structure DistStats where
  maxDist : ℚ
  minDist : ℚ
deriving DecidableEq

/-- Values of `maxDist` and `minDist` before the scan (lines 40-41). -/
def initStats : DistStats := { maxDist := 0, minDist := 100 }

/-- The body of the scan loop (lines 43-49) for one distance. -/
def scanStep (s : DistStats) (dist : ℚ) : DistStats :=
  { maxDist := if dist > s.maxDist then dist else s.maxDist
    minDist := if dist < s.minDist then dist else s.minDist }

/-- The scan loop `for (int i = 0; i < descriptorObj.rows; i++)` of lines
42-50, reading `matches[i]`. -/
def scanLoop (rows : Nat) (ms : List DMatch) : Option DistStats :=
  (List.range rows).foldlM
    (fun s i => (ms[i]?).bind fun m => some (scanStep s m.distance)) initStats

/-! ## The match quality filter (lines 52-57) -/

/-- The function `std::max` on two values: `(a < b) ? b : a`. -/
def stdMax (a b : ℚ) : ℚ := if a < b then b else a

/-- The threshold `max(2 * minDist, 0.02)` of line 54. -/
def threshold (minDist : ℚ) : ℚ := stdMax (2 * minDist) (1 / 50)

/-- The body of the filter loop (lines 54-56) for one match. -/
def filterStep (minDist : ℚ) (goodMatches : List DMatch) (m : DMatch) : List DMatch :=
  if m.distance ≤ threshold minDist then goodMatches ++ [m] else goodMatches

/-- The filter loop `for (int i = 0; i < descriptorObj.rows; i++)` of lines
52-57, reading `matches[i]`. -/
def filterLoop (rows : Nat) (ms : List DMatch) (minDist : ℚ) : Option (List DMatch) :=
  (List.range rows).foldlM
    (fun good i => (ms[i]?).bind fun m => some (filterStep minDist good m)) []

/-- The threshold of line 54 with the literal `2` replaced by a multiplier `k`. -/
def thresholdWith (k minDist : ℚ) : ℚ := stdMax (k * minDist) (1 / 50)

/-- The filter loop of lines 52-57 with the literal `2` replaced by a
multiplier `k`. -/
def filterLoopWith (k : ℚ) (rows : Nat) (ms : List DMatch) (minDist : ℚ) :
    Option (List DMatch) :=
  (List.range rows).foldlM
    (fun good i => (ms[i]?).bind fun m =>
      some (if m.distance ≤ thresholdWith k minDist then good ++ [m] else good)) []

/-! ## The gated block (lines 59-91) -/

/-- The access `v[i]` with an `int` index `i` converted to `size_t`. -/
def vecAt {α : Type} (v : List α) (i : Int) : Option α :=
  if 0 ≤ i then v[i.toNat]? else none

/-- The body of the loop of lines 66-69 for one good match. -/
def pointStep (keypointsObj keypointsScene : List KeyPoint)
    (acc : List Point2f × List Point2f) (g : DMatch) :
    Option (List Point2f × List Point2f) :=
  (vecAt keypointsObj g.queryIdx).bind fun ko =>
    (vecAt keypointsScene g.trainIdx).bind fun ks =>
      some (acc.1 ++ [ko.pt], acc.2 ++ [ks.pt])

/-- The loop of lines 64-69 building `obj` and `scene`; its bound is
`goodMatches.size()`, so `goodMatches[i]` is always in range. -/
def pointLoop (keypointsObj keypointsScene : List KeyPoint) (goodMatches : List DMatch) :
    Option (List Point2f × List Point2f) :=
  goodMatches.foldlM (pointStep keypointsObj keypointsScene) ([], [])

/-- The vector `objCorners` of lines 73-77.  The `int` coordinates are converted
to `float`, which is exact for image sizes below `2 ^ 24`. -/
def objCorners (cols rows : Int) : List Point2f :=
  [((0 : ℚ), (0 : ℚ)), ((cols : ℚ), (0 : ℚ)), ((cols : ℚ), (rows : ℚ)), ((0 : ℚ), (rows : ℚ))]

/-- The drawing loop of lines 85-87: the end points of the four calls of
`line`. -/
def lineLoop (sceneCorners : List Point2f) : Option (List (Point2f × Point2f)) :=
  (List.range 4).foldlM
    (fun drawn i => (sceneCorners[i]?).bind fun a =>
      (sceneCorners[(i + 1) % 4]?).bind fun b => some (drawn ++ [(a, b)])) []

/-- The block guarded by `goodMatches.size() > 8` (lines 59-91). -/
def gatedBlock (c : Collaborators) (objectCols objectRows : Int)
    (keypointsObj keypointsScene : List KeyPoint) (goodMatches : List DMatch) :
    Option FrameEffect :=
  if goodMatches.length > 8 then
    (pointLoop keypointsObj keypointsScene goodMatches).bind fun os =>
      let H := c.findHomography os.1 os.2
      match c.perspectiveTransform (objCorners objectCols objectRows) H with
      | .ok sceneCorners =>
          (lineLoop sceneCorners).bind fun drawn =>
            some { estimatorCalls := [(os.1, os.2)], printed := [goodMatches.length],
                   lines := drawn }
      | .error _ =>
          some { estimatorCalls := [(os.1, os.2)], printed := [goodMatches.length],
                 lines := [] }
  else
    some { estimatorCalls := [], printed := [], lines := [] }

/-- One iteration of the frame loop from the matcher's result on (lines
40-91): scan, filter, gate, estimate, project, draw. -/
def processFrame (c : Collaborators) (objectCols objectRows : Int)
    (keypointsObj keypointsScene : List KeyPoint) (descriptorObjRows : Nat)
    (ms : List DMatch) : Option FrameEffect :=
  (scanLoop descriptorObjRows ms).bind fun stats =>
    (filterLoop descriptorObjRows ms stats.minDist).bind fun goodMatches =>
      gatedBlock c objectCols objectRows keypointsObj keypointsScene goodMatches

/-! ## The projection routine -/

/-- Modelled from the spec: the library routine `perspectiveTransform` is not
part of the repository.  Section 4.4 has the projector apply the homography to
each corner: the point `(x, y)` goes to
`((m0 x + m1 y + m2) / w, (m3 x + m4 y + m5) / w)` with `w = m6 x + m7 y + m8`,
and to `(0, 0)` when `w` vanishes. -/
def applyHomography (m0 m1 m2 m3 m4 m5 m6 m7 m8 : ℚ) (p : Point2f) : Point2f :=
  let w := m6 * p.1 + m7 * p.2 + m8
  if w = 0 then (0, 0)
  else ((m0 * p.1 + m1 * p.2 + m2) / w, (m3 * p.1 + m4 * p.2 + m5) / w)

/-- Modelled from the spec: the library routine `perspectiveTransform` is not
part of the repository.  It projects every source point, in order, and faults
on a matrix that is not 3x3 (section 4.3: an unreturned homography). -/
def perspectiveTransform (src : List Point2f) : Mat → Except Fault (List Point2f)
  | .empty => .error .cvException
  | .mat3 m0 m1 m2 m3 m4 m5 m6 m7 m8 =>
      .ok (src.map (applyHomography m0 m1 m2 m3 m4 m5 m6 m7 m8))

/-- The identity homography. -/
def identityH : Mat := .mat3 1 0 0 0 1 0 0 0 1

/-- The all-zero 3x3 matrix. -/
def zeroH : Mat := .mat3 0 0 0 0 0 0 0 0 0

/-- Collaborators whose estimator always answers `H` and whose projection is
`perspectiveTransform`. -/
def constCollaborators (H : Mat) : Collaborators :=
  { findHomography := fun _ _ => H, perspectiveTransform := perspectiveTransform }

/-! ## Sample frames -/

/-- Fifty correspondences: five of distance `0.01`, forty-five of distance 1. -/
def fiftyMatches : List DMatch :=
  List.replicate 5 (DMatch.mk 0 0 0 (1 / 100)) ++ List.replicate 45 (DMatch.mk 1 1 0 1)

/-- Nine correspondences of distance 0, the `i`-th pairing reference keypoint
`i` with scene keypoint `i`. -/
def nineMatches : List DMatch :=
  [DMatch.mk 0 0 0 0, DMatch.mk 1 1 0 0, DMatch.mk 2 2 0 0, DMatch.mk 3 3 0 0,
   DMatch.mk 4 4 0 0, DMatch.mk 5 5 0 0, DMatch.mk 6 6 0 0, DMatch.mk 7 7 0 0,
   DMatch.mk 8 8 0 0]

/-- Nine keypoints on a 3x3 grid. -/
def gridKeypoints : List KeyPoint :=
  [KeyPoint.mk (0, 0), KeyPoint.mk (1, 0), KeyPoint.mk (2, 0),
   KeyPoint.mk (0, 1), KeyPoint.mk (1, 1), KeyPoint.mk (2, 1),
   KeyPoint.mk (0, 2), KeyPoint.mk (1, 2), KeyPoint.mk (2, 2)]

/-- The positions of `gridKeypoints`. -/
def gridPoints : List Point2f :=
  [(0, 0), (1, 0), (2, 0), (0, 1), (1, 1), (2, 1), (0, 2), (1, 2), (2, 2)]

/-- Three correspondences of distances 3, 1 and 2. -/
def threeMatches : List DMatch :=
  [DMatch.mk 0 4 0 3, DMatch.mk 1 7 0 1, DMatch.mk 2 5 0 2]

/-- A singular 3x3 matrix of rank 2: it sends `(x, y)` to `(x, 0)`. -/
def flattenH : Mat := .mat3 1 0 0 0 0 0 0 0 1

/-! ## Loop lemmas -/

/-- A loop over the indices `pre.length, ..., pre.length + suf.length - 1` that
reads the list `pre ++ suf` at its index is a fold over `suf`. -/
theorem foldlM_range'_getElem? {α σ : Type} (f : σ → α → σ) (suf : List α) :
    ∀ (pre : List α) (init : σ),
      (List.range' pre.length suf.length).foldlM
        (fun s i => ((pre ++ suf)[i]?).bind fun a => some (f s a)) init
        = some (suf.foldl f init) := by
  induction suf with
  | nil => intro pre init; simp
  | cons a suf ih =>
    intro pre init
    have h := ih (pre ++ [a]) (f init a)
    simp only [List.length_append, List.length_singleton, List.append_assoc,
      List.singleton_append] at h
    have e : (pre ++ a :: suf)[pre.length]? = some a := by
      rw [List.getElem?_append_right (le_refl _)]; simp
    rw [List.length_cons, List.range'_succ, List.foldlM_cons, e]
    exact h

/-- A loop `for i < l.size()` reading `l[i]` is a fold over `l`. -/
theorem foldlM_range_getElem? {α σ : Type} (f : σ → α → σ) (l : List α) (init : σ) :
    (List.range l.length).foldlM (fun s i => (l[i]?).bind fun a => some (f s a)) init
      = some (l.foldl f init) := by
  have h := foldlM_range'_getElem? f l [] init
  simpa [List.range_eq_range'] using h

/-- The function `std::max` is the maximum. -/
theorem stdMax_eq_max (a b : ℚ) : stdMax a b = max a b := by
  unfold stdMax
  split_ifs with h
  · exact (max_eq_right h.le).symm
  · exact (max_eq_left (not_lt.1 h)).symm

/-- An appending loop with a test is a `filter`. -/
theorem foldl_append_if (p : DMatch → Prop) [DecidablePred p] (ms : List DMatch) :
    ∀ acc : List DMatch,
      ms.foldl (fun good m => if p m then good ++ [m] else good) acc
        = acc ++ ms.filter (fun m => decide (p m)) := by
  induction ms with
  | nil => intro acc; simp
  | cons m ms ih =>
    intro acc
    by_cases h : p m
    · simp [List.foldl_cons, ih, h]
    · simp [List.foldl_cons, ih, h]

/-- The scan loop run over all matches is a fold of `scanStep`. -/
theorem scanLoop_length (ms : List DMatch) :
    scanLoop ms.length ms
      = some (ms.foldl (fun s m => scanStep s m.distance) initStats) :=
  foldlM_range_getElem? (fun s (m : DMatch) => scanStep s m.distance) ms initStats

/-- The filter loop run over all matches is a `filter`. -/
theorem filterLoop_length (ms : List DMatch) (d : ℚ) :
    filterLoop ms.length ms d
      = some (ms.filter fun m => decide (m.distance ≤ threshold d)) := by
  have h := foldlM_range_getElem? (filterStep d) ms []
  have e := foldl_append_if (fun m => m.distance ≤ threshold d) ms []
  simp only [List.nil_append] at e
  unfold filterLoop
  rw [h]
  exact congrArg some e

/-- The generalised filter loop run over all matches is a `filter`. -/
theorem filterLoopWith_length (k : ℚ) (ms : List DMatch) (d : ℚ) :
    filterLoopWith k ms.length ms d
      = some (ms.filter fun m => decide (m.distance ≤ thresholdWith k d)) := by
  have h := foldlM_range_getElem?
    (fun good m => if m.distance ≤ thresholdWith k d then good ++ [m] else good) ms []
  have e := foldl_append_if (fun m => m.distance ≤ thresholdWith k d) ms []
  simp only [List.nil_append] at e
  unfold filterLoopWith
  rw [h]
  exact congrArg some e

/-- One step of the scan takes the minimum. -/
theorem scanStep_minDist (s : DistStats) (d : ℚ) :
    (scanStep s d).minDist = min s.minDist d := by
  unfold scanStep
  by_cases h : d < s.minDist
  · simp [h, min_eq_right h.le]
  · simp [h, min_eq_left (not_lt.1 h)]

/-- One step of the scan takes the maximum. -/
theorem scanStep_maxDist (s : DistStats) (d : ℚ) :
    (scanStep s d).maxDist = max s.maxDist d := by
  unfold scanStep
  by_cases h : d > s.maxDist
  · simp [h, max_eq_right (le_of_lt h)]
  · simp [h, max_eq_left (not_lt.1 h)]

/-- The scanned `minDist` is the minimum of its start value and the least
distance `lo` of the list. -/
theorem scan_minDist (lo : ℚ) (ms : List DMatch) :
    ∀ s : DistStats, (∀ m ∈ ms, lo ≤ m.distance) →
      ((ms.foldl (fun s m => scanStep s m.distance) s).minDist = min s.minDist lo
        ↔ (s.minDist ≤ lo ∨ ∃ m ∈ ms, m.distance = lo)) := by
  induction ms with
  | nil =>
    intro s _
    simp only [List.foldl_nil, List.not_mem_nil, false_and, exists_false, or_false]
    constructor
    · intro h; rw [h]; exact min_le_right _ _
    · intro h; exact (min_eq_left h).symm
  | cons a ms ih =>
    intro s hlo
    have ha : lo ≤ a.distance := hlo a (List.mem_cons_self _ _)
    have h := ih (scanStep s a.distance) (fun m hm => hlo m (List.mem_cons_of_mem _ hm))
    have e : min (scanStep s a.distance).minDist lo = min s.minDist lo := by
      rw [scanStep_minDist, min_assoc, min_eq_right ha]
    rw [List.foldl_cons, ← e, h, scanStep_minDist]
    simp only [List.mem_cons, exists_eq_or_imp, min_le_iff]
    constructor
    · rintro ((h1 | h1) | h1)
      · exact Or.inl h1
      · exact Or.inr (Or.inl (le_antisymm h1 ha))
      · exact Or.inr (Or.inr h1)
    · rintro (h1 | h1 | h1)
      · exact Or.inl (Or.inl h1)
      · exact Or.inl (Or.inr h1.le)
      · exact Or.inr h1

/-- The scanned `maxDist` is the maximum of its start value and the greatest
distance `hi` of the list. -/
theorem scan_maxDist (hi : ℚ) (ms : List DMatch) :
    ∀ s : DistStats, (∀ m ∈ ms, m.distance ≤ hi) →
      ((ms.foldl (fun s m => scanStep s m.distance) s).maxDist = max s.maxDist hi
        ↔ (hi ≤ s.maxDist ∨ ∃ m ∈ ms, m.distance = hi)) := by
  induction ms with
  | nil =>
    intro s _
    simp only [List.foldl_nil, List.not_mem_nil, false_and, exists_false, or_false]
    constructor
    · intro h; rw [h]; exact le_max_right _ _
    · intro h; exact (max_eq_left h).symm
  | cons a ms ih =>
    intro s hhi
    have ha : a.distance ≤ hi := hhi a (List.mem_cons_self _ _)
    have h := ih (scanStep s a.distance) (fun m hm => hhi m (List.mem_cons_of_mem _ hm))
    have e : max (scanStep s a.distance).maxDist hi = max s.maxDist hi := by
      rw [scanStep_maxDist, max_assoc, max_eq_right ha]
    rw [List.foldl_cons, ← e, h, scanStep_maxDist]
    simp only [List.mem_cons, exists_eq_or_imp, le_max_iff]
    constructor
    · rintro ((h1 | h1) | h1)
      · exact Or.inl h1
      · exact Or.inr (Or.inl (le_antisymm ha h1))
      · exact Or.inr (Or.inr h1)
    · rintro (h1 | h1 | h1)
      · exact Or.inl (Or.inl h1)
      · exact Or.inl (Or.inr h1.ge)
      · exact Or.inr h1

/-- The scanned `minDist` stays non-negative on non-negative distances. -/
theorem scan_minDist_nonneg (ms : List DMatch) :
    ∀ s : DistStats, 0 ≤ s.minDist → (∀ m ∈ ms, 0 ≤ m.distance) →
      0 ≤ (ms.foldl (fun s m => scanStep s m.distance) s).minDist := by
  induction ms with
  | nil => intro s hs _; simpa using hs
  | cons a ms ih =>
    intro s hs hnn
    rw [List.foldl_cons]
    refine ih _ ?_ (fun m hm => hnn m (List.mem_cons_of_mem _ hm))
    rw [scanStep_minDist]
    exact le_min hs (hnn a (List.mem_cons_self _ _))

/-! ## The match quality filter: claims -/

/-- C1: over a frame's correspondence set the scan and the filter both finish,
and a correspondence is in the good set exactly when it is in the set and its
distance is at most `T = max (2 * minDist) 0.02`, `minDist` being the scan's
value; `T` is `0.02` at `minDist = 0` and `0.06` at `minDist = 0.03`. -/
theorem filter_retains_iff_within_threshold (ms : List DMatch) :
    ∃ stats good,
      scanLoop ms.length ms = some stats ∧
      filterLoop ms.length ms stats.minDist = some good ∧
      threshold stats.minDist = max (2 * stats.minDist) (1 / 50) ∧
      good = ms.filter (fun m => decide (m.distance ≤ max (2 * stats.minDist) (1 / 50))) ∧
      (∀ m, m ∈ good ↔ m ∈ ms ∧ m.distance ≤ max (2 * stats.minDist) (1 / 50)) ∧
      threshold 0 = 1 / 50 ∧ threshold (3 / 100) = 6 / 100 := by
  refine ⟨_, _, scanLoop_length ms, filterLoop_length ms _, ?_, ?_, ?_, ?_, ?_⟩
  · exact stdMax_eq_max _ _
  · simp only [threshold, stdMax_eq_max]
  · intro m
    simp only [threshold, stdMax_eq_max, List.mem_filter, decide_eq_true_eq]
  · norm_num [threshold, stdMax]
  · norm_num [threshold, stdMax]

/-- C7: the good set is a sub-sequence of the frame's correspondence set:
same elements in the same order, none more often than in the input, and no
more of them than the input has. -/
theorem good_matches_sublist (ms : List DMatch) :
    ∃ stats good,
      scanLoop ms.length ms = some stats ∧
      filterLoop ms.length ms stats.minDist = some good ∧
      good.Sublist ms ∧
      (∀ m ∈ good, m ∈ ms) ∧
      (∀ m, good.count m ≤ ms.count m) ∧
      good.length ≤ ms.length := by
  refine ⟨_, _, scanLoop_length ms, filterLoop_length ms _, ?_, ?_, ?_, ?_⟩
  · exact List.filter_sublist ms
  · intro m hm
    exact (List.filter_sublist ms).subset hm
  · intro m
    exact (List.filter_sublist ms).count_le m
  · exact (List.filter_sublist ms).length_le

/-- C8, as the claim states it, fails: on the single correspondence of distance
150 (the smallest distance of the set) the scan ends with `minDist = 100`. -/
theorem scan_minDist_not_smallest :
    (∀ m ∈ [DMatch.mk 0 0 0 150], (0 : ℚ) ≤ m.distance) ∧
    (∀ m ∈ [DMatch.mk 0 0 0 150], (150 : ℚ) ≤ m.distance) ∧
    scanLoop [DMatch.mk 0 0 0 150].length [DMatch.mk 0 0 0 150]
      = some { maxDist := 150, minDist := 100 } ∧
    (100 : ℚ) ≠ 150 := by
  refine ⟨by simp, by simp, ?_, by norm_num⟩
  rw [scanLoop_length]
  norm_num [scanStep, initStats]

/-- C8, amended: over a correspondence set with non-negative distances whose
smallest distance is `lo` and largest is `hi`, the scan ends with
`minDist = min 100 lo` (so `lo` itself when `lo ≤ 100`) and `maxDist = hi`. -/
theorem scan_statistics (ms : List DMatch) (lo hi : ℚ)
    (hlo : ∀ m ∈ ms, lo ≤ m.distance) (hlo_mem : ∃ m ∈ ms, m.distance = lo)
    (hhi : ∀ m ∈ ms, m.distance ≤ hi) (hhi_mem : ∃ m ∈ ms, m.distance = hi)
    (hnn : ∀ m ∈ ms, 0 ≤ m.distance) :
    scanLoop ms.length ms = some { maxDist := hi, minDist := min 100 lo } ∧
    (lo ≤ 100 → scanLoop ms.length ms = some { maxDist := hi, minDist := lo }) := by
  have hmin := (scan_minDist lo ms initStats hlo).2 (Or.inr hlo_mem)
  have hmax := (scan_maxDist hi ms initStats hhi).2 (Or.inr hhi_mem)
  have hhi0 : (0 : ℚ) ≤ hi := by
    obtain ⟨m, hm, rfl⟩ := hhi_mem
    exact hnn m hm
  have e : ms.foldl (fun s m => scanStep s m.distance) initStats
      = { maxDist := hi, minDist := min 100 lo } := by
    cases h : ms.foldl (fun s m => scanStep s m.distance) initStats with
    | mk a b =>
      rw [h] at hmin hmax
      simp only [initStats] at hmin hmax
      rw [max_eq_right hhi0] at hmax
      simp only [DistStats.mk.injEq]
      exact ⟨hmax, hmin⟩
  refine ⟨by rw [scanLoop_length, e], ?_⟩
  intro h100
  rw [scanLoop_length, e, min_eq_right h100]

/-- C10: over a correspondence set with non-negative distances whose smallest
distance is `lo`, the good set produced by scan and filter is non-empty exactly
when `lo ≤ 200`, and once `lo ≤ 100` every correspondence of distance `lo` is
retained. -/
theorem good_matches_nonempty_iff (ms : List DMatch) (lo : ℚ)
    (hlo : ∀ m ∈ ms, lo ≤ m.distance) (hlo_mem : ∃ m ∈ ms, m.distance = lo)
    (hnn : ∀ m ∈ ms, 0 ≤ m.distance) :
    ∃ stats good,
      scanLoop ms.length ms = some stats ∧
      filterLoop ms.length ms stats.minDist = some good ∧
      (good ≠ [] ↔ lo ≤ 200) ∧
      (lo ≤ 100 → ∀ m ∈ ms, m.distance = lo → m ∈ good) := by
  have hmin : (ms.foldl (fun s m => scanStep s m.distance) initStats).minDist
      = min 100 lo := (scan_minDist lo ms initStats hlo).2 (Or.inr hlo_mem)
  have hlo0 : 0 ≤ lo := by
    obtain ⟨m, hm, rfl⟩ := hlo_mem
    exact hnn m hm
  refine ⟨_, _, scanLoop_length ms, filterLoop_length ms _, ?_, ?_⟩
  · rw [hmin, threshold, stdMax_eq_max]
    constructor
    · intro hne
      obtain ⟨m, hm⟩ := List.exists_mem_of_ne_nil _ hne
      simp only [List.mem_filter, decide_eq_true_eq] at hm
      have h1 : lo ≤ max (2 * min 100 lo) (1 / 50) := le_trans (hlo m hm.1) hm.2
      rcases le_max_iff.1 h1 with h2 | h2
      · have h3 : min (100 : ℚ) lo ≤ 100 := min_le_left _ _
        linarith
      · linarith
    · intro h200
      obtain ⟨m, hm, hd⟩ := hlo_mem
      refine List.ne_nil_of_mem (List.mem_filter.2 ⟨hm, ?_⟩)
      simp only [decide_eq_true_eq, hd]
      refine le_max_of_le_left ?_
      rcases le_total lo 100 with h | h
      · rw [min_eq_right h]; linarith
      · rw [min_eq_left h]; linarith
  · intro h100 m hm hd
    rw [hmin, threshold, stdMax_eq_max, min_eq_right h100]
    refine List.mem_filter.2 ⟨hm, ?_⟩
    simp only [decide_eq_true_eq, hd]
    refine le_max_of_le_left ?_
    linarith

/-- C6: over a correspondence set with non-negative distances, for multipliers
`k1 ≤ k2` the filter with threshold `max (k1 * minDist) 0.02` retains at most as
many correspondences as the one with `max (k2 * minDist) 0.02`; at the
multiplier 2 the generalised filter is the program's filter. -/
theorem filter_monotone_in_multiplier (ms : List DMatch) (k1 k2 : ℚ) (hk : k1 ≤ k2)
    (hnn : ∀ m ∈ ms, 0 ≤ m.distance) :
    ∃ stats g1 g2,
      scanLoop ms.length ms = some stats ∧
      filterLoopWith k1 ms.length ms stats.minDist = some g1 ∧
      filterLoopWith k2 ms.length ms stats.minDist = some g2 ∧
      g1.length ≤ g2.length ∧
      filterLoopWith 2 ms.length ms stats.minDist
        = filterLoop ms.length ms stats.minDist := by
  have h0 : 0 ≤ (ms.foldl (fun s m => scanStep s m.distance) initStats).minDist :=
    scan_minDist_nonneg ms initStats (by norm_num [initStats]) hnn
  refine ⟨_, _, _, scanLoop_length ms, filterLoopWith_length k1 ms _,
    filterLoopWith_length k2 ms _, ?_, ?_⟩
  · refine (List.monotone_filter_right ms ?_).length_le
    intro m hm
    simp only [decide_eq_true_eq, thresholdWith, stdMax_eq_max] at hm ⊢
    refine le_trans hm (max_le_max ?_ le_rfl)
    exact mul_le_mul_of_nonneg_right hk h0
  · rw [filterLoopWith_length, filterLoop_length]
    rfl

/-! ## The gated block: lemmas -/

/-- An index within range is a defined access. -/
theorem vecAt_of_range {α : Type} (v : List α) (i : Int) (h0 : 0 ≤ i)
    (h1 : i < (v.length : Int)) : ∃ a, vecAt v i = some a := by
  have h : i.toNat < v.length := by omega
  exact ⟨v[i.toNat], by rw [vecAt, if_pos h0, List.getElem?_eq_getElem h]⟩

/-- The point loop over good matches that all index existing keypoints appends,
match by match, the positions `pO g` and `pS g` of the keypoints indexed. -/
theorem pointLoop_fold (kpO kpS : List KeyPoint) (pO pS : DMatch → Point2f)
    (good : List DMatch) :
    ∀ acc : List Point2f × List Point2f,
      (∀ g ∈ good, ∃ ko ks, vecAt kpO g.queryIdx = some ko ∧
        vecAt kpS g.trainIdx = some ks ∧ pO g = ko.pt ∧ pS g = ks.pt) →
      good.foldlM (pointStep kpO kpS) acc
        = some (acc.1 ++ good.map pO, acc.2 ++ good.map pS) := by
  induction good with
  | nil => intro acc _; simp
  | cons g good ih =>
    intro acc h
    obtain ⟨ko, ks, h1, h2, h3, h4⟩ := h g (List.mem_cons_self _ _)
    have hstep : pointStep kpO kpS acc g = some (acc.1 ++ [pO g], acc.2 ++ [pS g]) := by
      simp [pointStep, h1, h2, h3, h4]
    rw [List.foldlM_cons, hstep]
    simp only [Option.bind_eq_bind, Option.some_bind]
    rw [ih _ (fun g' hg' => h g' (List.mem_cons_of_mem _ hg'))]
    simp

/-- The drawing loop on four corners draws the four edges, in order. -/
theorem lineLoop_four (a b c d : Point2f) :
    lineLoop [a, b, c, d] = some [(a, b), (b, c), (c, d), (d, a)] := by
  simp [lineLoop, List.range_succ]

/-- A list of length four is four elements. -/
theorem eq_four_of_length {α : Type} (l : List α) (h : l.length = 4) :
    ∃ a b c d, l = [a, b, c, d] := by
  match l, h with
  | [a, b, c, d], _ => exact ⟨a, b, c, d, rfl⟩

/-- The frame iteration once scan and filter have produced their values. -/
theorem processFrame_eq (c : Collaborators) (cols rows : Int) (kpO kpS : List KeyPoint)
    (n : Nat) (ms : List DMatch) (stats : DistStats) (good : List DMatch)
    (hs : scanLoop n ms = some stats) (hg : filterLoop n ms stats.minDist = some good) :
    processFrame c cols rows kpO kpS n ms = gatedBlock c cols rows kpO kpS good := by
  simp [processFrame, hs, hg]

/-- The gated block when the gate passes and the point loop is defined: one
estimator call, the count printed, and the lines decided by the projection. -/
theorem gatedBlock_pass (c : Collaborators) (cols rows : Int) (kpO kpS : List KeyPoint)
    (good : List DMatch) (obj scene : List Point2f) (hgate : 8 < good.length)
    (hp : pointLoop kpO kpS good = some (obj, scene)) :
    (∀ e, c.perspectiveTransform (objCorners cols rows) (c.findHomography obj scene)
        = .error e →
      gatedBlock c cols rows kpO kpS good
        = some { estimatorCalls := [(obj, scene)], printed := [good.length], lines := [] }) ∧
    (∀ p0 p1 p2 p3,
      c.perspectiveTransform (objCorners cols rows) (c.findHomography obj scene)
        = .ok [p0, p1, p2, p3] →
      gatedBlock c cols rows kpO kpS good
        = some { estimatorCalls := [(obj, scene)], printed := [good.length],
                 lines := [(p0, p1), (p1, p2), (p2, p3), (p3, p0)] }) := by
  constructor
  · intro e he
    simp [gatedBlock, hgate, hp, he]
  · intro p0 p1 p2 p3 hok
    simp [gatedBlock, hgate, hp, hok, lineLoop_four]

/-- The modelled projection returns as many points as it is given. -/
theorem perspectiveTransform_length (src : List Point2f) (H : Mat) (dst : List Point2f)
    (h : perspectiveTransform src H = .ok dst) : dst.length = src.length := by
  cases H with
  | empty => simp [perspectiveTransform] at h
  | mat3 m0 m1 m2 m3 m4 m5 m6 m7 m8 =>
    simp only [perspectiveTransform, Except.ok.injEq] at h
    rw [← h, List.length_map]

/-- An access with a non-negative index reads the list at that index. -/
theorem vecAt_eq_getElem? {α : Type} (v : List α) (i : Int) (h0 : 0 ≤ i) :
    vecAt v i = v[i.toNat]? := by
  rw [vecAt, if_pos h0]

/-- The point loop over good matches whose indices are in range is defined and
lists the indexed keypoint positions in the order of the good matches. -/
theorem pointLoop_defined (kpO kpS : List KeyPoint) (good : List DMatch)
    (hidx : ∀ g ∈ good, 0 ≤ g.queryIdx ∧ g.queryIdx < (kpO.length : Int) ∧
      0 ≤ g.trainIdx ∧ g.trainIdx < (kpS.length : Int)) :
    ∃ obj scene, pointLoop kpO kpS good = some (obj, scene) ∧
      obj.length = good.length ∧ scene.length = good.length ∧
      ∀ (i : Nat) (g : DMatch), good[i]? = some g → ∃ ko ks,
        kpO[g.queryIdx.toNat]? = some ko ∧ kpS[g.trainIdx.toNat]? = some ks ∧
        obj[i]? = some ko.pt ∧ scene[i]? = some ks.pt := by
  let pO : DMatch → Point2f := fun g => ((vecAt kpO g.queryIdx).map KeyPoint.pt).getD (0, 0)
  let pS : DMatch → Point2f := fun g => ((vecAt kpS g.trainIdx).map KeyPoint.pt).getD (0, 0)
  have hval : ∀ g ∈ good, ∃ ko ks, vecAt kpO g.queryIdx = some ko ∧
      vecAt kpS g.trainIdx = some ks ∧ pO g = ko.pt ∧ pS g = ks.pt := by
    intro g hg
    obtain ⟨h0, h1, h2, h3⟩ := hidx g hg
    obtain ⟨ko, hko⟩ := vecAt_of_range kpO g.queryIdx h0 h1
    obtain ⟨ks, hks⟩ := vecAt_of_range kpS g.trainIdx h2 h3
    exact ⟨ko, ks, hko, hks, by simp [pO, hko], by simp [pS, hks]⟩
  have hp := pointLoop_fold kpO kpS pO pS good ([], []) hval
  simp only [List.nil_append] at hp
  refine ⟨good.map pO, good.map pS, hp, by simp, by simp, ?_⟩
  intro i g hig
  have hmem : g ∈ good := List.getElem?_mem hig
  obtain ⟨h0, -, h2, -⟩ := hidx g hmem
  obtain ⟨ko, ks, h1, h2', h3, h4⟩ := hval g hmem
  rw [vecAt_eq_getElem? kpO g.queryIdx h0] at h1
  rw [vecAt_eq_getElem? kpS g.trainIdx h2] at h2'
  exact ⟨ko, ks, h1, h2', by simp [hig, h3], by simp [hig, h4]⟩

/-- The gated block completes when the gate passes, the point loop is defined
and the projection returns as many points as it is given. -/
theorem gatedBlock_total (c : Collaborators) (cols rows : Int) (kpO kpS : List KeyPoint)
    (good : List DMatch) (obj scene : List Point2f) (hgate : 8 < good.length)
    (hp : pointLoop kpO kpS good = some (obj, scene))
    (hproj : ∀ src H dst, c.perspectiveTransform src H = .ok dst → dst.length = src.length) :
    ∃ drawn, gatedBlock c cols rows kpO kpS good
      = some { estimatorCalls := [(obj, scene)], printed := [good.length], lines := drawn } := by
  have hb := gatedBlock_pass c cols rows kpO kpS good obj scene hgate hp
  cases hpt : c.perspectiveTransform (objCorners cols rows) (c.findHomography obj scene) with
  | error e => exact ⟨[], hb.1 e hpt⟩
  | ok dst =>
    have hlen : dst.length = 4 := hproj _ _ _ hpt
    obtain ⟨p0, p1, p2, p3, rfl⟩ := eq_four_of_length dst hlen
    exact ⟨_, hb.2 p0 p1 p2 p3 hpt⟩

/-! ## The presence gate and the gated block: claims -/

/-- C3: a frame whose good set has 8 or fewer elements ends without a call of
the estimator, without output and without a line drawn (`NotFound`). -/
theorem gate_fail_notFound (c : Collaborators) (cols rows : Int)
    (kpO kpS : List KeyPoint) (n : Nat) (ms : List DMatch) (stats : DistStats)
    (good : List DMatch) (hs : scanLoop n ms = some stats)
    (hg : filterLoop n ms stats.minDist = some good) (hle : good.length ≤ 8) :
    processFrame c cols rows kpO kpS n ms
      = some { estimatorCalls := [], printed := [], lines := [] } := by
  rw [processFrame_eq c cols rows kpO kpS n ms stats good hs hg, gatedBlock,
    if_neg (not_lt.2 hle)]

/-- Scan of the fifty sample correspondences. -/
theorem scan_fiftyMatches :
    scanLoop fiftyMatches.length fiftyMatches = some { maxDist := 1, minDist := 1 / 100 } := by
  rw [scanLoop_length]
  norm_num [fiftyMatches, List.replicate, scanStep, initStats]

/-- Filter of the fifty sample correspondences: five pass. -/
theorem filter_fiftyMatches :
    filterLoop fiftyMatches.length fiftyMatches (1 / 100)
      = some (List.replicate 5 (DMatch.mk 0 0 0 (1 / 100))) := by
  rw [filterLoop_length]
  norm_num [fiftyMatches, List.replicate, threshold, stdMax, List.filter]

/-- C3 at fifty correspondences of which five pass the filter. -/
theorem gate_fail_notFound_witness :
    (List.replicate 5 (DMatch.mk 0 0 0 (1 / 100))).length ≤ 8 ∧
    processFrame (constCollaborators identityH) 640 480 gridKeypoints gridKeypoints
        fiftyMatches.length fiftyMatches
      = some { estimatorCalls := [], printed := [], lines := [] } :=
  ⟨by simp, gate_fail_notFound (constCollaborators identityH) 640 480 gridKeypoints
    gridKeypoints fiftyMatches.length fiftyMatches { maxDist := 1, minDist := 1 / 100 }
    (List.replicate 5 (DMatch.mk 0 0 0 (1 / 100))) scan_fiftyMatches filter_fiftyMatches
    (by simp)⟩

/-- C2: on a frame whose matches index existing keypoints, the iteration
completes, and the estimator is called (once) exactly when the good set has more
than 8 elements; with 8 or fewer there is no call and no line (`NotFound`). -/
theorem presence_gate (c : Collaborators) (cols rows : Int) (kpO kpS : List KeyPoint)
    (ms : List DMatch)
    (hidx : ∀ m ∈ ms, 0 ≤ m.queryIdx ∧ m.queryIdx < (kpO.length : Int) ∧
      0 ≤ m.trainIdx ∧ m.trainIdx < (kpS.length : Int))
    (hproj : ∀ src H dst, c.perspectiveTransform src H = .ok dst → dst.length = src.length) :
    ∃ stats good eff,
      scanLoop ms.length ms = some stats ∧
      filterLoop ms.length ms stats.minDist = some good ∧
      processFrame c cols rows kpO kpS ms.length ms = some eff ∧
      (eff.estimatorCalls.length = 1 ↔ 8 < good.length) ∧
      (eff.estimatorCalls = [] ↔ good.length ≤ 8) ∧
      (good.length ≤ 8 → eff.lines = []) := by
  have hs := scanLoop_length ms
  have hg := filterLoop_length ms
    (ms.foldl (fun s m => scanStep s m.distance) initStats).minDist
  have he := processFrame_eq c cols rows kpO kpS ms.length ms _ _ hs hg
  by_cases hgate : 8 < (ms.filter fun m => decide (m.distance ≤
      threshold (ms.foldl (fun s m => scanStep s m.distance) initStats).minDist)).length
  · obtain ⟨obj, scene, hp, -⟩ := pointLoop_defined kpO kpS _
      (fun g hg' => hidx g ((List.filter_sublist ms).subset hg'))
    obtain ⟨drawn, hb⟩ := gatedBlock_total c cols rows kpO kpS _ obj scene hgate hp hproj
    refine ⟨_, _, _, hs, hg, he.trans hb, ?_, ?_, ?_⟩
    · simp [hgate]
    · simp [hgate]
    · intro hle; omega
  · have hle := not_lt.1 hgate
    refine ⟨_, _, { estimatorCalls := [], printed := [], lines := [] }, hs, hg, ?_, ?_, ?_, ?_⟩
    · rw [he, gatedBlock, if_neg hgate]
    · simp [hgate]
    · simp [hle]
    · intro _; rfl

/-- Every one of the nine sample matches indexes one of the nine keypoints. -/
theorem nineMatches_in_range :
    ∀ m ∈ nineMatches, 0 ≤ m.queryIdx ∧ m.queryIdx < (gridKeypoints.length : Int) ∧
      0 ≤ m.trainIdx ∧ m.trainIdx < (gridKeypoints.length : Int) := by
  simp [nineMatches, gridKeypoints]

/-- C2 at the nine sample correspondences, all of which pass the filter. -/
theorem presence_gate_witness :
    ∃ stats good eff,
      scanLoop nineMatches.length nineMatches = some stats ∧
      filterLoop nineMatches.length nineMatches stats.minDist = some good ∧
      processFrame (constCollaborators identityH) 640 480 gridKeypoints gridKeypoints
        nineMatches.length nineMatches = some eff ∧
      (eff.estimatorCalls.length = 1 ↔ 8 < good.length) ∧
      (eff.estimatorCalls = [] ↔ good.length ≤ 8) ∧
      (good.length ≤ 8 → eff.lines = []) :=
  presence_gate (constCollaborators identityH) 640 480 gridKeypoints gridKeypoints
    nineMatches nineMatches_in_range
    (fun src H dst h => perspectiveTransform_length src H dst h)

/-- C9: on a frame that passes the gate and whose good matches index existing
keypoints, the estimator is called once, on two lists as long as the good set
(hence at least 4 long) whose `i`-th points are `keypointsObj[queryIdx].pt` and
`keypointsScene[trainIdx].pt` for the `queryIdx` and `trainIdx` of the `i`-th
good match. -/
theorem estimator_input (c : Collaborators) (cols rows : Int) (kpO kpS : List KeyPoint)
    (n : Nat) (ms : List DMatch) (stats : DistStats) (good : List DMatch)
    (hs : scanLoop n ms = some stats) (hg : filterLoop n ms stats.minDist = some good)
    (hgate : 8 < good.length)
    (hidx : ∀ g ∈ good, 0 ≤ g.queryIdx ∧ g.queryIdx < (kpO.length : Int) ∧
      0 ≤ g.trainIdx ∧ g.trainIdx < (kpS.length : Int))
    (hproj : ∀ src H dst, c.perspectiveTransform src H = .ok dst → dst.length = src.length) :
    ∃ obj scene eff,
      processFrame c cols rows kpO kpS n ms = some eff ∧
      eff.estimatorCalls = [(obj, scene)] ∧
      obj.length = scene.length ∧ obj.length = good.length ∧ 4 ≤ obj.length ∧
      ∀ (i : Nat) (g : DMatch), good[i]? = some g → ∃ ko ks,
        kpO[g.queryIdx.toNat]? = some ko ∧ kpS[g.trainIdx.toNat]? = some ks ∧
        obj[i]? = some ko.pt ∧ scene[i]? = some ks.pt := by
  obtain ⟨obj, scene, hp, ho, hsc, hpts⟩ := pointLoop_defined kpO kpS good hidx
  obtain ⟨drawn, hb⟩ := gatedBlock_total c cols rows kpO kpS good obj scene hgate hp hproj
  have he := processFrame_eq c cols rows kpO kpS n ms stats good hs hg
  exact ⟨obj, scene, _, he.trans hb, rfl, by omega, ho, by omega, hpts⟩

/-- Scan of the nine sample correspondences. -/
theorem scan_nineMatches :
    scanLoop nineMatches.length nineMatches = some { maxDist := 0, minDist := 0 } := by
  rw [scanLoop_length]
  norm_num [nineMatches, scanStep, initStats]

/-- Filter of the nine sample correspondences: all pass. -/
theorem filter_nineMatches :
    filterLoop nineMatches.length nineMatches 0 = some nineMatches := by
  rw [filterLoop_length]
  norm_num [nineMatches, threshold, stdMax, List.filter]

/-- C9 at the nine sample correspondences. -/
theorem estimator_input_witness :
    ∃ obj scene eff,
      processFrame (constCollaborators identityH) 640 480 gridKeypoints gridKeypoints
        nineMatches.length nineMatches = some eff ∧
      eff.estimatorCalls = [(obj, scene)] ∧
      obj.length = scene.length ∧ obj.length = nineMatches.length ∧ 4 ≤ obj.length ∧
      ∀ (i : Nat) (g : DMatch), nineMatches[i]? = some g → ∃ ko ks,
        gridKeypoints[g.queryIdx.toNat]? = some ko ∧
        gridKeypoints[g.trainIdx.toNat]? = some ks ∧
        obj[i]? = some ko.pt ∧ scene[i]? = some ks.pt :=
  estimator_input (constCollaborators identityH) 640 480 gridKeypoints gridKeypoints
    nineMatches.length nineMatches { maxDist := 0, minDist := 0 } nineMatches
    scan_nineMatches filter_nineMatches (by simp [nineMatches]) nineMatches_in_range
    (fun src H dst h => perspectiveTransform_length src H dst h)

/-- The point loop on the nine sample correspondences. -/
theorem pointLoop_nineMatches :
    pointLoop gridKeypoints gridKeypoints nineMatches = some (gridPoints, gridPoints) := by
  simp [pointLoop, pointStep, vecAt, nineMatches, gridKeypoints, gridPoints]

/-- C4, as the claim states it, fails: on a frame that passes the gate with nine
good correspondences, the all-zero homography is projected without a fault and
four lines are drawn (all from `(0, 0)` to `(0, 0)`); so is the singular matrix
`flattenH`, which sends two different points to one and draws the segment from
`(0, 0)` to `(640, 0)`. -/
theorem singular_homography_is_drawn :
    processFrame (constCollaborators zeroH) 640 480 gridKeypoints gridKeypoints
        nineMatches.length nineMatches
      = some { estimatorCalls := [(gridPoints, gridPoints)], printed := [9],
               lines := [((0, 0), (0, 0)), ((0, 0), (0, 0)), ((0, 0), (0, 0)),
                         ((0, 0), (0, 0))] } ∧
    processFrame (constCollaborators flattenH) 640 480 gridKeypoints gridKeypoints
        nineMatches.length nineMatches
      = some { estimatorCalls := [(gridPoints, gridPoints)], printed := [9],
               lines := [((0, 0), (640, 0)), ((640, 0), (640, 0)), ((640, 0), (0, 0)),
                         ((0, 0), (0, 0))] } ∧
    perspectiveTransform [(0, 1)] flattenH = perspectiveTransform [(0, 2)] flattenH := by
  have hgate : 8 < nineMatches.length := by simp [nineMatches]
  refine ⟨?_, ?_, ?_⟩
  · rw [processFrame_eq _ 640 480 gridKeypoints gridKeypoints _ nineMatches _ _
      scan_nineMatches filter_nineMatches]
    refine (gatedBlock_pass (constCollaborators zeroH) 640 480 gridKeypoints gridKeypoints
      nineMatches gridPoints gridPoints hgate pointLoop_nineMatches).2 _ _ _ _ ?_
    norm_num [constCollaborators, perspectiveTransform, zeroH, objCorners, applyHomography]
  · rw [processFrame_eq _ 640 480 gridKeypoints gridKeypoints _ nineMatches _ _
      scan_nineMatches filter_nineMatches]
    refine (gatedBlock_pass (constCollaborators flattenH) 640 480 gridKeypoints gridKeypoints
      nineMatches gridPoints gridPoints hgate pointLoop_nineMatches).2 _ _ _ _ ?_
    norm_num [constCollaborators, perspectiveTransform, flattenH, objCorners, applyHomography]
  · norm_num [perspectiveTransform, flattenH, applyHomography]

/-- C4, amended: on a frame that passes the gate, if projecting the reference
corners through the estimator's answer raises a fault, the iteration completes
with the one estimator call, the count printed and no line drawn (`NotFound`);
if the projection returns four points, the iteration completes with the four
edges between them drawn; the modelled projection raises the fault on the empty
matrix, the estimator's way of returning no homography. -/
theorem projection_fault_notFound (c : Collaborators) (cols rows : Int)
    (kpO kpS : List KeyPoint) (n : Nat) (ms : List DMatch) (stats : DistStats)
    (good : List DMatch) (obj scene : List Point2f)
    (hs : scanLoop n ms = some stats) (hg : filterLoop n ms stats.minDist = some good)
    (hgate : 8 < good.length) (hp : pointLoop kpO kpS good = some (obj, scene)) :
    (∀ e, c.perspectiveTransform (objCorners cols rows) (c.findHomography obj scene)
        = .error e →
      processFrame c cols rows kpO kpS n ms
        = some { estimatorCalls := [(obj, scene)], printed := [good.length], lines := [] }) ∧
    (∀ p0 p1 p2 p3,
      c.perspectiveTransform (objCorners cols rows) (c.findHomography obj scene)
        = .ok [p0, p1, p2, p3] →
      processFrame c cols rows kpO kpS n ms
        = some { estimatorCalls := [(obj, scene)], printed := [good.length],
                 lines := [(p0, p1), (p1, p2), (p2, p3), (p3, p0)] }) ∧
    perspectiveTransform (objCorners cols rows) Mat.empty = .error Fault.cvException := by
  have hb := gatedBlock_pass c cols rows kpO kpS good obj scene hgate hp
  rw [processFrame_eq c cols rows kpO kpS n ms stats good hs hg]
  exact ⟨hb.1, hb.2, rfl⟩

/-- C4, amended, at the nine sample correspondences with an estimator that
returns no homography: the frame ends `NotFound`. -/
theorem projection_fault_notFound_witness :
    8 < nineMatches.length ∧
    processFrame (constCollaborators Mat.empty) 640 480 gridKeypoints gridKeypoints
        nineMatches.length nineMatches
      = some { estimatorCalls := [(gridPoints, gridPoints)],
               printed := [nineMatches.length], lines := [] } :=
  ⟨by simp [nineMatches],
   (projection_fault_notFound (constCollaborators Mat.empty) 640 480 gridKeypoints
      gridKeypoints nineMatches.length nineMatches { maxDist := 0, minDist := 0 }
      nineMatches gridPoints gridPoints scan_nineMatches filter_nineMatches
      (by simp [nineMatches]) pointLoop_nineMatches).1 Fault.cvException rfl⟩

/-- C5: through the identity homography the reference corners `(0, 0)`,
`(cols, 0)`, `(cols, rows)`, `(0, rows)` are projected to themselves, in the
same order. -/
theorem identity_projection (cols rows : Int) :
    perspectiveTransform (objCorners cols rows) identityH = .ok (objCorners cols rows) ∧
    objCorners cols rows
      = [((0 : ℚ), (0 : ℚ)), ((cols : ℚ), (0 : ℚ)), ((cols : ℚ), (rows : ℚ)),
         ((0 : ℚ), (rows : ℚ))] := by
  refine ⟨?_, rfl⟩
  norm_num [perspectiveTransform, identityH, objCorners, applyHomography]

/-! ## Sample evaluations of the filter claims -/

/-- C8, amended, at three correspondences of distances 3, 1 and 2. -/
theorem scan_statistics_witness :
    scanLoop threeMatches.length threeMatches
      = some { maxDist := 3, minDist := min 100 1 } ∧
    ((1 : ℚ) ≤ 100 → scanLoop threeMatches.length threeMatches
      = some { maxDist := 3, minDist := 1 }) :=
  scan_statistics threeMatches 1 3
    (by norm_num [threeMatches]) (by norm_num [threeMatches])
    (by norm_num [threeMatches]) (by norm_num [threeMatches])
    (by norm_num [threeMatches])

/-- C10 at three correspondences of distances 3, 1 and 2. -/
theorem good_matches_nonempty_iff_witness :
    ∃ stats good,
      scanLoop threeMatches.length threeMatches = some stats ∧
      filterLoop threeMatches.length threeMatches stats.minDist = some good ∧
      (good ≠ [] ↔ (1 : ℚ) ≤ 200) ∧
      ((1 : ℚ) ≤ 100 → ∀ m ∈ threeMatches, m.distance = 1 → m ∈ good) :=
  good_matches_nonempty_iff threeMatches 1
    (by norm_num [threeMatches]) (by norm_num [threeMatches])
    (by norm_num [threeMatches])

/-- C6 at three correspondences of distances 3, 1 and 2 and the multipliers 1
and 2. -/
theorem filter_monotone_in_multiplier_witness :
    ∃ stats g1 g2,
      scanLoop threeMatches.length threeMatches = some stats ∧
      filterLoopWith 1 threeMatches.length threeMatches stats.minDist = some g1 ∧
      filterLoopWith 2 threeMatches.length threeMatches stats.minDist = some g2 ∧
      g1.length ≤ g2.length ∧
      filterLoopWith 2 threeMatches.length threeMatches stats.minDist
        = filterLoop threeMatches.length threeMatches stats.minDist :=
  filter_monotone_in_multiplier threeMatches 1 2 (by norm_num)
    (by norm_num [threeMatches])

end IntSys
